import Mathlib

/-!
Verification of the incremental terminal-input decoder
(`src/textual/_xterm_parser.py`) against its design specification.

The decoder is embedded shallowly:

* `Event` mirrors the events constructed by the decoder; each mouse
  constructor carries exactly the data supplied at its construction site
  in `XTermParser.parse_mouse_code` (wheel events are constructed with
  position only, the other mouse events with position, deltas, button,
  the three modifier flags and the screen coordinates).
* `ParserState` is the mouse-tracking state `self.last_x` / `self.last_y`.
* `sgrFields` embeds the prefix match of the regular expression
  `ESC [ < (digits) ; (digits) ; (digits) (M or m)`; digits are the ASCII
  decimal digits.  The digit groups of the regular expression are forced
  to be maximal runs, so maximal-munch scanning is an exact embedding.
* `reMouseEvent` embeds the anchored full match of
  `ESC [ ( optional < , one or more of digit-or-semicolon, M or m | M followed
  by exactly three non-newline characters )`.
* `run` is the decoding loop `XTermParser.parse`.  The suspension engine
  (`read1` / `peek_buffer`, from the absent `_parser` module) is modelled
  from the spec: the driver delivers the characters of the input list one
  at a time, `peek_buffer` is the driver-supplied answer `buffered n`
  (whether one more unit is already available after `n` consumed units),
  and end-of-stream abandons any pending attempt.  The escape-sequence
  table (`ANSI_SEQUENCES`, from the absent `_ansi_sequences` module) is a
  parameter `get`.  The driver flag `more_data()` is sampled once per
  top-level character, exactly as in the source, and the sampled value is
  kept inside the `inEscape` mode.
-/

/-- Events emitted by the decoder.  Mouse constructors carry exactly the
arguments passed where they are constructed in `parse_mouse_code`. -/
inductive Event where
  | Key (key : String)
  | MouseDown (x y deltaX deltaY : Int) (button : Nat) (shift mkey ctrl : Bool)
      (screenX screenY : Int)
  | MouseUp (x y deltaX deltaY : Int) (button : Nat) (shift mkey ctrl : Bool)
      (screenX screenY : Int)
  | MouseMove (x y deltaX deltaY : Int) (button : Nat) (shift mkey ctrl : Bool)
      (screenX screenY : Int)
  | MouseScrollDown (x y : Int)
  | MouseScrollUp (x y : Int)
deriving DecidableEq, Repr

/-- The decoder's mouse-tracking state: `self.last_x`, `self.last_y`
(both start at `0` in `__init__`). -/
structure ParserState where
  lastX : Int
  lastY : Int
deriving DecidableEq, Repr

/-- The implicit state of the matching state machine: `Idle`, or inside an
escape-sequence attempt with the accumulated sequence and the value of
`has_more_data` sampled when the attempt started. -/
inductive Mode where
  | idle
  | inEscape (seq : List Char) (flag : Bool)
deriving DecidableEq, Repr

/-- One record handed to the optional debug sink (`debug_log`). -/
inductive DebugEntry where
  | ch (c : Char)
  | seqEntry (s : List Char)
  | matched (keys : Option (List String))
deriving DecidableEq, Repr

/-- `debug_log`: append the record when the sink is present, do nothing
when it is absent. -/
def dlog (sink : Bool) (log : List DebugEntry) (e : DebugEntry) : List DebugEntry :=
  if sink then log ++ [e] else log

/-- Split a maximal run of leading ASCII decimal digits. -/
def takeDigits : List Char → List Char × List Char
  | [] => ([], [])
  | c :: cs =>
    if c.isDigit then
      let p := takeDigits cs
      (c :: p.1, p.2)
    else ([], c :: cs)

/-- Value of a run of decimal digits, as Python `int` computes it. -/
def digitsVal (ds : List Char) : Nat :=
  ds.foldl (fun a c => a * 10 + (c.toNat - 48)) 0

/-- Prefix match of `_re_sgr_mouse`: `ESC [ <` then three nonempty digit
groups separated by semicolons, then `M` or `m` (anything may follow). -/
def sgrFields (code : List Char) : Option (Nat × Nat × Nat × Char) :=
  match code with
  | '\x1b' :: '[' :: '<' :: rest =>
    match takeDigits rest with
    | ([], _) => none
    | (d1, ';' :: r1) =>
      match takeDigits r1 with
      | ([], _) => none
      | (d2, ';' :: r2) =>
        match takeDigits r2 with
        | ([], _) => none
        | (d3, t :: _) =>
          if t = 'M' ∨ t = 'm' then
            some (digitsVal d1, digitsVal d2, digitsVal d3, t)
          else none
        | _ => none
      | _ => none
    | _ => none
  | _ => none

/-- `XTermParser.parse_mouse_code`.  On an SGR match it computes the
button as `(buttons + 1) & 3` (`& 3` is `% 4`), the zero-based
coordinates, the deltas against the stored state, updates `last_x` /
`last_y`, and builds the event; otherwise it returns `None` and leaves
the state untouched. -/
def parse_mouse_code (code : List Char) (st : ParserState) :
    Option Event × ParserState :=
  match sgrFields code with
  | none => (none, st)
  | some (buttons, xf, yf, state) =>
    let button := (buttons + 1) % 4
    let x : Int := (xf : Int) - 1
    let y : Int := (yf : Int) - 1
    let deltaX := x - st.lastX
    let deltaY := y - st.lastY
    let shift := buttons.testBit 2
    let mkey := buttons.testBit 3
    let ctrl := buttons.testBit 4
    let ev :=
      if buttons.testBit 6 then
        if button = 1 then Event.MouseScrollDown x y else Event.MouseScrollUp x y
      else if buttons.testBit 5 then
        Event.MouseMove x y deltaX deltaY button shift mkey ctrl x y
      else if state = 'M' then
        Event.MouseDown x y deltaX deltaY button shift mkey ctrl x y
      else
        Event.MouseUp x y deltaX deltaY button shift mkey ctrl x y
    (some ev, ⟨x, y⟩)

/-- A digit or a semicolon (the character class of the mouse regex body). -/
def isDigitSemi (c : Char) : Bool := c.isDigit || c = ';'

/-- Zero or more digit-or-semicolon characters followed by exactly one
final `M` or `m`. -/
def digitSemiTerm : List Char → Bool
  | [] => false
  | [t] => t = 'M' || t = 'm'
  | c :: cs => isDigitSemi c && digitSemiTerm cs

/-- Body of `_re_mouse_event` after the `ESC [` prefix: either an optional
`<` then one or more digit-or-semicolon characters then `M`/`m` at the
end, or `M` followed by exactly three non-newline characters. -/
def mouseBody (body : List Char) : Bool :=
  (match body with
   | '<' :: c :: cs => isDigitSemi c && digitSemiTerm cs
   | c :: cs => isDigitSemi c && digitSemiTerm cs
   | [] => false)
  || (match body with
      | 'M' :: cs => cs.length = 3 && cs.all (fun c => c ≠ '\n')
      | _ => false)

/-- Anchored full match of `_re_mouse_event`. -/
def reMouseEvent : List Char → Bool
  | '\x1b' :: '[' :: body => mouseBody body
  | _ => false

/-- Final outcome of a decoder run: the events emitted in order, the final
mouse-tracking state, the final machine state, and the debug records. -/
structure ParseResult where
  events : List Event
  state : ParserState
  mode : Mode
  log : List DebugEntry
deriving DecidableEq, Repr

/-- The decoding loop `XTermParser.parse`, driven over a whole input
stream.  `get` is the escape-sequence table lookup, `buffered n` the
suspension engine's buffered-input answer after `n` consumed characters,
`moreData n` the driver flag sampled right after the character at
position `n` is read, `sink` the presence of the debug sink.  Entering an
escape attempt stores the sampled flag; before each extension the
disjunction of the buffered answer and the stored flag is checked, and
when neither holds the attempt is abandoned and the character is handled
by the top-level (idle) logic.  End-of-stream abandons any pending
attempt, emitting nothing. -/
def run (get : List Char → Option (List String)) (buffered moreData : Nat → Bool)
    (sink : Bool) : List Char → Nat → Mode → ParserState → List DebugEntry →
    ParseResult
  | [], _n, _mode, st, log => ⟨[], st, Mode.idle, log⟩
  | c :: rest, n, mode, st, log =>
    match (match mode with
           | Mode.inEscape seq flag =>
             if buffered n || flag then Mode.inEscape seq flag else Mode.idle
           | Mode.idle => Mode.idle) with
    | Mode.inEscape seq flag =>
      let seq' := seq ++ [c]
      let log2 := dlog sink (dlog sink log (DebugEntry.seqEntry seq'))
        (DebugEntry.matched (get seq'))
      match get seq' with
      | some keys =>
        let r := run get buffered moreData sink rest (n+1) Mode.idle st log2
        ⟨keys.map Event.Key ++ r.events, r.state, r.mode, r.log⟩
      | none =>
        if reMouseEvent seq' then
          let p := parse_mouse_code seq' st
          let r := run get buffered moreData sink rest (n+1) Mode.idle p.2 log2
          ⟨p.1.toList ++ r.events, r.state, r.mode, r.log⟩
        else
          run get buffered moreData sink rest (n+1) (Mode.inEscape seq' flag) st log2
    | Mode.idle =>
      let log2 := dlog sink log (DebugEntry.ch c)
      let flag := moreData n
      if c = '\x1b' then
        run get buffered moreData sink rest (n+1) (Mode.inEscape [c] flag) st log2
      else
        let evs := match get [c] with
          | some keys => keys.map Event.Key
          | none => [Event.Key (String.mk [c])]
        let r := run get buffered moreData sink rest (n+1) Mode.idle st log2
        ⟨evs ++ r.events, r.state, r.mode, r.log⟩

/-- Projection used to state which data a mouse event carries: position,
deltas, button identity and the three modifier flags, available exactly
for `MouseDown` / `MouseUp` / `MouseMove`. -/
def mouseData : Event → Option (Int × Int × Int × Int × Nat × Bool × Bool × Bool)
  | Event.MouseDown x y dx dy b s m c _ _ => some (x, y, dx, dy, b, s, m, c)
  | Event.MouseUp x y dx dy b s m c _ _ => some (x, y, dx, dy, b, s, m, c)
  | Event.MouseMove x y dx dy b s m c _ _ => some (x, y, dx, dy, b, s, m, c)
  | _ => none

/-- Position carried by a wheel event. -/
def scrollData : Event → Option (Int × Int)
  | Event.MouseScrollDown x y => some (x, y)
  | Event.MouseScrollUp x y => some (x, y)
  | _ => none

/-- The five mouse event variants. -/
def isMouseEvent : Event → Bool
  | Event.Key _ => false
  | _ => true

/-- The two wheel variants. -/
def isScrollEvent : Event → Bool
  | Event.MouseScrollDown _ _ => true
  | Event.MouseScrollUp _ _ => true
  | _ => false

-- sanity checks on concrete decodes
example :
    parse_mouse_code (String.toList "\x1b[<64;5;5M") ⟨0, 0⟩
      = (some (Event.MouseScrollDown 4 4), ⟨4, 4⟩) := by decide

example :
    parse_mouse_code (String.toList "\x1b[<65;5;5M") ⟨0, 0⟩
      = (some (Event.MouseScrollUp 4 4), ⟨4, 4⟩) := by decide

example :
    parse_mouse_code (String.toList "\x1b[<0;11;21M") ⟨0, 0⟩
      = (some (Event.MouseDown 10 20 10 20 1 false false false 10 20), ⟨10, 20⟩) := by
  decide

example : reMouseEvent (String.toList "\x1b[<64;5;5") = false := by decide
example : reMouseEvent (String.toList "\x1b[<64;5;5M") = true := by decide
example : reMouseEvent (String.toList "\x1b[<5;5M") = true := by decide
example : sgrFields (String.toList "\x1b[<5;5M") = none := by decide

/-! ### General lemmas about single decoding steps -/

/-- At end-of-stream the decoder terminates cleanly: any pending attempt
is abandoned, nothing is emitted, the state is unchanged. -/
theorem run_eof (get : List Char → Option (List String)) (buffered moreData : Nat → Bool)
    (sink : Bool) (n : Nat) (mode : Mode) (st : ParserState) (log : List DebugEntry) :
    run get buffered moreData sink [] n mode st log = ⟨[], st, Mode.idle, log⟩ := rfl

/-- When neither buffered input nor the stored driver flag holds, the
escape attempt is abandoned: decoding continues exactly as from `Idle`. -/
theorem run_abandon (get : List Char → Option (List String))
    (buffered moreData : Nat → Bool) (sink : Bool) (c : Char) (rest : List Char)
    (n : Nat) (seq : List Char) (flag : Bool) (st : ParserState)
    (log : List DebugEntry) (h : (buffered n || flag) = false) :
    run get buffered moreData sink (c :: rest) n (Mode.inEscape seq flag) st log
      = run get buffered moreData sink (c :: rest) n Mode.idle st log := by
  simp [run, h]

/-- Extension step: no table match and no complete-looking mouse report,
so the attempt continues with the longer sequence. -/
theorem run_extend (get : List Char → Option (List String)) (buffered moreData : Nat → Bool)
    (sink : Bool) (c : Char) (rest : List Char) (n : Nat) (seq : List Char) (flag : Bool)
    (st : ParserState) (log : List DebugEntry)
    (hcond : (buffered n || flag) = true)
    (h1 : get (seq ++ [c]) = none)
    (h2 : reMouseEvent (seq ++ [c]) = false) :
    run get buffered moreData sink (c :: rest) n (Mode.inEscape seq flag) st log
      = run get buffered moreData sink rest (n+1) (Mode.inEscape (seq ++ [c]) flag) st
          (dlog sink (dlog sink log (DebugEntry.seqEntry (seq ++ [c])))
            (DebugEntry.matched none)) := by
  simp [run, hcond, h1, h2]

/-- Table-hit step: the accumulated sequence is a table key, the mapped
key events are emitted and the decoder returns to `Idle` with the mouse
state untouched. -/
theorem run_hit (get : List Char → Option (List String)) (buffered moreData : Nat → Bool)
    (sink : Bool) (c : Char) (rest : List Char) (n : Nat) (seq : List Char) (flag : Bool)
    (st : ParserState) (log : List DebugEntry) (keys : List String)
    (hcond : (buffered n || flag) = true)
    (hget : get (seq ++ [c]) = some keys) :
    run get buffered moreData sink (c :: rest) n (Mode.inEscape seq flag) st log
      = ⟨keys.map Event.Key
            ++ (run get buffered moreData sink rest (n+1) Mode.idle st
                (dlog sink (dlog sink log (DebugEntry.seqEntry (seq ++ [c])))
                  (DebugEntry.matched (some keys)))).events,
          (run get buffered moreData sink rest (n+1) Mode.idle st
            (dlog sink (dlog sink log (DebugEntry.seqEntry (seq ++ [c])))
              (DebugEntry.matched (some keys)))).state,
          (run get buffered moreData sink rest (n+1) Mode.idle st
            (dlog sink (dlog sink log (DebugEntry.seqEntry (seq ++ [c])))
              (DebugEntry.matched (some keys)))).mode,
          (run get buffered moreData sink rest (n+1) Mode.idle st
            (dlog sink (dlog sink log (DebugEntry.seqEntry (seq ++ [c])))
              (DebugEntry.matched (some keys)))).log⟩ := by
  simp [run, hcond, hget]

/-- Mouse step: the accumulated sequence is not a table key but fully
matches the mouse-report shape; the mouse decode is attempted, its event
(if any) emitted, and the decoder returns to `Idle`. -/
theorem run_mouse (get : List Char → Option (List String)) (buffered moreData : Nat → Bool)
    (sink : Bool) (c : Char) (rest : List Char) (n : Nat) (seq : List Char) (flag : Bool)
    (st : ParserState) (log : List DebugEntry)
    (hcond : (buffered n || flag) = true)
    (hget : get (seq ++ [c]) = none)
    (hmse : reMouseEvent (seq ++ [c]) = true) :
    run get buffered moreData sink (c :: rest) n (Mode.inEscape seq flag) st log
      = ⟨(parse_mouse_code (seq ++ [c]) st).1.toList
            ++ (run get buffered moreData sink rest (n+1) Mode.idle
                (parse_mouse_code (seq ++ [c]) st).2
                (dlog sink (dlog sink log (DebugEntry.seqEntry (seq ++ [c])))
                  (DebugEntry.matched none))).events,
          (run get buffered moreData sink rest (n+1) Mode.idle
            (parse_mouse_code (seq ++ [c]) st).2
            (dlog sink (dlog sink log (DebugEntry.seqEntry (seq ++ [c])))
              (DebugEntry.matched none))).state,
          (run get buffered moreData sink rest (n+1) Mode.idle
            (parse_mouse_code (seq ++ [c]) st).2
            (dlog sink (dlog sink log (DebugEntry.seqEntry (seq ++ [c])))
              (DebugEntry.matched none))).mode,
          (run get buffered moreData sink rest (n+1) Mode.idle
            (parse_mouse_code (seq ++ [c]) st).2
            (dlog sink (dlog sink log (DebugEntry.seqEntry (seq ++ [c])))
              (DebugEntry.matched none))).log⟩ := by
  simp [run, hcond, hget, hmse]

/-- Idle step on ESC: enter an escape attempt, storing the driver flag
sampled for this character. -/
theorem run_idle_esc (get : List Char → Option (List String)) (buffered moreData : Nat → Bool)
    (sink : Bool) (rest : List Char) (n : Nat) (st : ParserState) (log : List DebugEntry) :
    run get buffered moreData sink ('\x1b' :: rest) n Mode.idle st log
      = run get buffered moreData sink rest (n+1) (Mode.inEscape ['\x1b'] (moreData n)) st
          (dlog sink log (DebugEntry.ch '\x1b')) := by
  simp [run]

/-- Idle step on any non-ESC character: emit its table mapping, or the
raw character as a key event, and stay in `Idle`. -/
theorem run_idle_other (get : List Char → Option (List String)) (buffered moreData : Nat → Bool)
    (sink : Bool) (c : Char) (rest : List Char) (n : Nat) (st : ParserState)
    (log : List DebugEntry) (hc : c ≠ '\x1b') :
    run get buffered moreData sink (c :: rest) n Mode.idle st log
      = ⟨(match get [c] with
          | some keys => keys.map Event.Key
          | none => [Event.Key (String.mk [c])])
            ++ (run get buffered moreData sink rest (n+1) Mode.idle st
                (dlog sink log (DebugEntry.ch c))).events,
          (run get buffered moreData sink rest (n+1) Mode.idle st
            (dlog sink log (DebugEntry.ch c))).state,
          (run get buffered moreData sink rest (n+1) Mode.idle st
            (dlog sink log (DebugEntry.ch c))).mode,
          (run get buffered moreData sink rest (n+1) Mode.idle st
            (dlog sink log (DebugEntry.ch c))).log⟩ := by
  simp [run, hc]

/-- The observable outcome of a run (events, final mouse state, final
machine state) depends neither on the debug sink nor on the records
accumulated so far: the log is write-only. -/
theorem run_obs (get : List Char → Option (List String)) (buffered moreData : Nat → Bool)
    (s₁ s₂ : Bool) (input : List Char) :
    ∀ (n : Nat) (mode : Mode) (st : ParserState) (log₁ log₂ : List DebugEntry),
      (run get buffered moreData s₁ input n mode st log₁).events
        = (run get buffered moreData s₂ input n mode st log₂).events
      ∧ (run get buffered moreData s₁ input n mode st log₁).state
        = (run get buffered moreData s₂ input n mode st log₂).state
      ∧ (run get buffered moreData s₁ input n mode st log₁).mode
        = (run get buffered moreData s₂ input n mode st log₂).mode := by
  induction input with
  | nil => intro n mode st log₁ log₂; simp [run]
  | cons c rest ih =>
    intro n mode st log₁ log₂
    have hidle : ∀ (st : ParserState) (log₁ log₂ : List DebugEntry),
        (run get buffered moreData s₁ (c :: rest) n Mode.idle st log₁).events
          = (run get buffered moreData s₂ (c :: rest) n Mode.idle st log₂).events
        ∧ (run get buffered moreData s₁ (c :: rest) n Mode.idle st log₁).state
          = (run get buffered moreData s₂ (c :: rest) n Mode.idle st log₂).state
        ∧ (run get buffered moreData s₁ (c :: rest) n Mode.idle st log₁).mode
          = (run get buffered moreData s₂ (c :: rest) n Mode.idle st log₂).mode := by
      intro st log₁ log₂
      by_cases hc : c = '\x1b'
      · subst hc
        simp only [run, if_pos rfl]
        exact ih _ _ _ _ _
      · obtain ⟨he, hs, hm⟩ := ih (n+1) Mode.idle st
          (dlog s₁ log₁ (DebugEntry.ch c)) (dlog s₂ log₂ (DebugEntry.ch c))
        cases hget : get [c] <;> simp [run, hc, hget, he, hs, hm]
    cases mode with
    | idle => exact hidle st log₁ log₂
    | inEscape seq flag =>
      by_cases hb : (buffered n || flag) = true
      · cases hget : get (seq ++ [c]) with
        | some keys =>
          obtain ⟨he, hs, hm⟩ := ih (n+1) Mode.idle st
            (dlog s₁ (dlog s₁ log₁ (DebugEntry.seqEntry (seq ++ [c])))
              (DebugEntry.matched (some keys)))
            (dlog s₂ (dlog s₂ log₂ (DebugEntry.seqEntry (seq ++ [c])))
              (DebugEntry.matched (some keys)))
          simp [run, hb, hget, he, hs, hm]
        | none =>
          by_cases hm2 : reMouseEvent (seq ++ [c]) = true
          · obtain ⟨he, hs, hm⟩ := ih (n+1) Mode.idle (parse_mouse_code (seq ++ [c]) st).2
              (dlog s₁ (dlog s₁ log₁ (DebugEntry.seqEntry (seq ++ [c])))
                (DebugEntry.matched none))
              (dlog s₂ (dlog s₂ log₂ (DebugEntry.seqEntry (seq ++ [c])))
                (DebugEntry.matched none))
            simp [run, hb, hget, hm2, he, hs, hm]
          · obtain ⟨he, hs, hm⟩ := ih (n+1) (Mode.inEscape (seq ++ [c]) flag) st
              (dlog s₁ (dlog s₁ log₁ (DebugEntry.seqEntry (seq ++ [c])))
                (DebugEntry.matched none))
              (dlog s₂ (dlog s₂ log₂ (DebugEntry.seqEntry (seq ++ [c])))
                (DebugEntry.matched none))
            simp [run, hb, hget, hm2, he, hs, hm]
      · have hb' : (buffered n || flag) = false := by
          cases h : (buffered n || flag) with
          | true => exact absurd h hb
          | false => rfl
        rw [run_abandon get buffered moreData s₁ c rest n seq flag st log₁ hb',
          run_abandon get buffered moreData s₂ c rest n seq flag st log₂ hb']
        exact hidle st log₁ log₂

/-- Feeding exactly a table key (ESC followed by the key's tail, with the
driver flag stored as true) from inside the attempt emits exactly the
mapped key events, provided no proper prefix of length at least two is a
table key or a complete-looking mouse report. -/
theorem escRun_table (get : List Char → Option (List String)) (buffered moreData : Nat → Bool)
    (sink : Bool) (key : List Char) (keys : List String)
    (HK : get key = some keys)
    (Hpre : ∀ j, 2 ≤ j → j < key.length →
      get (key.take j) = none ∧ reMouseEvent (key.take j) = false) :
    ∀ (suf pre : List Char) (n : Nat) (st : ParserState) (log : List DebugEntry),
      pre ++ suf = key → pre ≠ [] → suf ≠ [] →
      (run get buffered moreData sink suf n (Mode.inEscape pre true) st log).events
        = keys.map Event.Key
      ∧ (run get buffered moreData sink suf n (Mode.inEscape pre true) st log).state = st
      ∧ (run get buffered moreData sink suf n (Mode.inEscape pre true) st log).mode
        = Mode.idle := by
  intro suf
  induction suf with
  | nil => intro pre n st log _hsplit _hpre hsuf; exact absurd rfl hsuf
  | cons d suf' ih =>
    intro pre n st log hsplit hpre _hsuf
    cases suf' with
    | nil =>
      have hkey : pre ++ [d] = key := by simpa using hsplit
      rw [run_hit get buffered moreData sink d [] n pre true st log keys
        (by simp) (by rw [hkey]; exact HK)]
      simp [run_eof]
    | cons d2 suf'' =>
      have hk2 : (pre ++ [d]) ++ (d2 :: suf'') = key := by
        simpa [List.append_assoc] using hsplit
      have hlen : (pre ++ [d]).length = pre.length + 1 := by simp
      have h1 : key.take (pre.length + 1) = pre ++ [d] := by
        rw [← hk2, ← hlen, List.take_left]
      have h2 : 2 ≤ pre.length + 1 := by
        have : 0 < pre.length := List.length_pos.mpr hpre
        omega
      have h3 : pre.length + 1 < key.length := by
        have := congrArg List.length hk2
        simp at this
        omega
      obtain ⟨hg, hmse⟩ := Hpre (pre.length + 1) h2 h3
      rw [h1] at hg hmse
      rw [run_extend get buffered moreData sink d (d2 :: suf'') n pre true st log
        (by simp) hg hmse]
      exact ih (pre ++ [d]) (n+1) st _ hk2 (by simp) (by simp)

/-- Claim C1 (counterexample): feeding `ESC [ < 64 ; 5 ; 5 M` does not
decode to `MouseScrollUp`; the decoder emits `MouseScrollDown` at (4,4),
the opposite direction of the one the claim states. -/
theorem c1_wheel_direction_counterexample :
    (run (fun _ => none) (fun _ => true) (fun _ => false) false
        (String.toList "\x1b[<64;5;5M") 0 Mode.idle ⟨0, 0⟩ []).events
      = [Event.MouseScrollDown 4 4]
    ∧ (run (fun _ => none) (fun _ => true) (fun _ => false) false
        (String.toList "\x1b[<64;5;5M") 0 Mode.idle ⟨0, 0⟩ []).events
      ≠ [Event.MouseScrollUp 4 4] := by
  constructor <;> decide

/-- Claim C1 (amended): for every decoded SGR mouse report whose raw
button field has bit 0x40 set, the decoder emits a wheel event whose
direction is determined by the masked button `(B + 1) & 3`:
`MouseScrollDown` if the masked button equals 1, and `MouseScrollUp`
otherwise; in particular `ESC [ < 64 ; 5 ; 5 M` decodes to
`MouseScrollDown` and `ESC [ < 65 ; 5 ; 5 M` to `MouseScrollUp`. -/
theorem c1_wheel_direction_amended :
    (∀ (code : List Char) (st : ParserState) (b xf yf : Nat) (t : Char),
      sgrFields code = some (b, xf, yf, t) → b.testBit 6 = true →
      (parse_mouse_code code st).1
        = some (if (b + 1) % 4 = 1 then
                  Event.MouseScrollDown ((xf : Int) - 1) ((yf : Int) - 1)
                else Event.MouseScrollUp ((xf : Int) - 1) ((yf : Int) - 1)))
    ∧ (run (fun _ => none) (fun _ => true) (fun _ => false) false
        (String.toList "\x1b[<64;5;5M") 0 Mode.idle ⟨0, 0⟩ []).events
        = [Event.MouseScrollDown 4 4]
    ∧ (run (fun _ => none) (fun _ => true) (fun _ => false) false
        (String.toList "\x1b[<65;5;5M") 0 Mode.idle ⟨0, 0⟩ []).events
        = [Event.MouseScrollUp 4 4] := by
  refine ⟨?_, by decide, by decide⟩
  intro code st b xf yf t hs hb
  simp [parse_mouse_code, hs, hb]

/-- Witness for the amended claim C1, at the concrete report
`ESC [ < 64 ; 5 ; 5 M`. -/
theorem c1_wheel_direction_amended_witness :
    (parse_mouse_code (String.toList "\x1b[<64;5;5M") ⟨0, 0⟩).1
      = some (if (64 + 1) % 4 = 1 then
                Event.MouseScrollDown (((5 : Nat) : Int) - 1) (((5 : Nat) : Int) - 1)
              else Event.MouseScrollUp (((5 : Nat) : Int) - 1) (((5 : Nat) : Int) - 1)) :=
  c1_wheel_direction_amended.1 (String.toList "\x1b[<64;5;5M") ⟨0, 0⟩ 64 5 5 'M'
    (by decide) (by decide)

/-- Claim C2 (counterexample): the first SGR report `ESC [ < 0 ; 11 ; 21 M`
from a fresh decoder emits a `MouseDown` whose button identity is 1, not 0
as the claim states (the code computes `(0 + 1) & 3 = 1`). -/
theorem c2_mouse_roundtrip_counterexample :
    (run (fun _ => none) (fun _ => true) (fun _ => false) false
        (String.toList "\x1b[<0;11;21M") 0 Mode.idle ⟨0, 0⟩ []).events
      = [Event.MouseDown 10 20 10 20 1 false false false 10 20]
    ∧ Event.MouseDown 10 20 10 20 1 false false false 10 20
      ≠ Event.MouseDown 10 20 10 20 0 false false false 10 20 := by
  constructor <;> decide

/-- Claim C2 (amended): from a fresh decoder, `ESC [ < 0 ; 11 ; 21 M`
emits `MouseDown` at column 10, row 20, button 1, delta (10,20); the
subsequent `ESC [ < 0 ; 12 ; 21 m` emits `MouseUp` at column 11, row 20
with delta (1,0), and the mouse state ends at (11,20). -/
theorem c2_mouse_roundtrip_amended :
    run (fun _ => none) (fun _ => true) (fun _ => false) false
        (String.toList "\x1b[<0;11;21M\x1b[<0;12;21m") 0 Mode.idle ⟨0, 0⟩ []
      = ⟨[Event.MouseDown 10 20 10 20 1 false false false 10 20,
          Event.MouseUp 11 20 1 0 1 false false false 11 20],
         ⟨11, 20⟩, Mode.idle, []⟩ := by
  decide

/-- Claim C3 (counterexample): the wheel event emitted for
`ESC [ < 64 ; 5 ; 5 M` is a mouse event that carries no delta, button or
modifier data — only a position. -/
theorem c3_event_fields_counterexample :
    (run (fun _ => none) (fun _ => true) (fun _ => false) false
        (String.toList "\x1b[<64;5;5M") 0 Mode.idle ⟨0, 0⟩ []).events
      = [Event.MouseScrollDown 4 4]
    ∧ isMouseEvent (Event.MouseScrollDown 4 4) = true
    ∧ mouseData (Event.MouseScrollDown 4 4) = none := by
  refine ⟨by decide, rfl, rfl⟩

/-- Claim C3 (amended): every emitted `MouseDown` / `MouseUp` /
`MouseMove` carries column, row, delta-column, delta-row, button identity
and modifier flags; the wheel events `MouseScrollUp` / `MouseScrollDown`
carry only column and row. -/
theorem c3_event_fields_amended (get : List Char → Option (List String))
    (buffered moreData : Nat → Bool) (sink : Bool) (input : List Char) (n : Nat)
    (mode : Mode) (st : ParserState) (log : List DebugEntry) (e : Event)
    (he : e ∈ (run get buffered moreData sink input n mode st log).events)
    (hm : isMouseEvent e = true) :
    (isScrollEvent e = false → mouseData e ≠ none)
    ∧ (isScrollEvent e = true → scrollData e ≠ none ∧ mouseData e = none) := by
  cases e <;> simp_all [isMouseEvent, isScrollEvent, mouseData, scrollData]

/-- Witness for the amended claim C3, at the wheel event emitted for
`ESC [ < 64 ; 5 ; 5 M`. -/
theorem c3_event_fields_amended_witness :
    scrollData (Event.MouseScrollDown 4 4) ≠ none
    ∧ mouseData (Event.MouseScrollDown 4 4) = none :=
  (c3_event_fields_amended (fun _ => none) (fun _ => true) (fun _ => false) false
    (String.toList "\x1b[<64;5;5M") 0 Mode.idle ⟨0, 0⟩ [] (Event.MouseScrollDown 4 4)
    (by decide) (by decide)).2 (by decide)

/-- Claim C4: in an escape attempt, when neither buffered input nor the
stored driver flag holds, the attempt is abandoned: no character is
demanded for it, no event is emitted for the pending sequence, and
decoding continues exactly as from `Idle` (likewise at end-of-stream). -/
theorem c4_abandon_without_input (get : List Char → Option (List String))
    (buffered moreData : Nat → Bool) (sink : Bool) (c : Char) (rest : List Char)
    (n : Nat) (seq : List Char) (flag : Bool) (st : ParserState) (log : List DebugEntry)
    (hbuf : buffered n = false) (hflag : flag = false) :
    run get buffered moreData sink (c :: rest) n (Mode.inEscape seq flag) st log
      = run get buffered moreData sink (c :: rest) n Mode.idle st log
    ∧ run get buffered moreData sink [] n (Mode.inEscape seq flag) st log
      = ⟨[], st, Mode.idle, log⟩ :=
  ⟨run_abandon get buffered moreData sink c rest n seq flag st log
      (by simp [hbuf, hflag]),
    run_eof get buffered moreData sink n (Mode.inEscape seq flag) st log⟩

/-- Witness for claim C4, at a concrete abandoned attempt. -/
theorem c4_abandon_without_input_witness :
    run (fun _ => none) (fun _ => false) (fun _ => false) false
        ['a'] 0 (Mode.inEscape ['\x1b'] false) ⟨0, 0⟩ []
      = run (fun _ => none) (fun _ => false) (fun _ => false) false
        ['a'] 0 Mode.idle ⟨0, 0⟩ []
    ∧ run (fun _ => none) (fun _ => false) (fun _ => false) false
        [] 0 (Mode.inEscape ['\x1b'] false) ⟨0, 0⟩ []
      = ⟨[], ⟨0, 0⟩, Mode.idle, []⟩ :=
  c4_abandon_without_input (fun _ => none) (fun _ => false) (fun _ => false) false
    'a' [] 0 ['\x1b'] false ⟨0, 0⟩ [] rfl rfl

/-- Claim C5: feeding exactly a table key (a multi-character escape code
beginning with ESC, no proper prefix of which of length at least two is a
table key or a complete-looking mouse report), with the driver flag true
for every character but the last, emits exactly the mapped key events in
table order, leaves the mouse state unchanged and returns to `Idle`. -/
theorem c5_table_key_decode (get : List Char → Option (List String))
    (buffered moreData : Nat → Bool) (sink : Bool) (k : List Char) (keys : List String)
    (st : ParserState)
    (hk : k ≠ [])
    (HK : get ('\x1b' :: k) = some keys)
    (Hpre : ∀ j, 2 ≤ j → j < ('\x1b' :: k).length →
      get (('\x1b' :: k).take j) = none ∧ reMouseEvent (('\x1b' :: k).take j) = false)
    (Hmore : ∀ i, i + 1 < ('\x1b' :: k).length → moreData i = true) :
    (run get buffered moreData sink ('\x1b' :: k) 0 Mode.idle st []).events
      = keys.map Event.Key
    ∧ (run get buffered moreData sink ('\x1b' :: k) 0 Mode.idle st []).state = st
    ∧ (run get buffered moreData sink ('\x1b' :: k) 0 Mode.idle st []).mode
      = Mode.idle := by
  have hm0 : moreData 0 = true := by
    apply Hmore
    have : 0 < k.length := List.length_pos.mpr hk
    simp
    omega
  rw [run_idle_esc, hm0]
  exact escRun_table get buffered moreData sink ('\x1b' :: k) keys HK Hpre k ['\x1b']
    1 st _ rfl (by simp) hk

/-- Witness for claim C5, with a table mapping the key `ESC O P` to the
single key name f1. -/
theorem c5_table_key_decode_witness :
    (run (fun s => if s = ['\x1b', 'O', 'P'] then some ["f1"] else none)
        (fun _ => false) (fun _ => true) false
        ('\x1b' :: ['O', 'P']) 0 Mode.idle ⟨0, 0⟩ []).events
      = ["f1"].map Event.Key :=
  (c5_table_key_decode (fun s => if s = ['\x1b', 'O', 'P'] then some ["f1"] else none)
    (fun _ => false) (fun _ => true) false ['O', 'P'] ["f1"] ⟨0, 0⟩
    (by decide) (by decide)
    (fun j h2 h3 => by
      have hj : j = 2 := by simp at h3; omega
      subst hj
      exact ⟨by decide, by decide⟩)
    (fun i _ => rfl)).1

/-- Claim C6: an exact table match takes precedence over mouse-report
recognition: when the accumulated sequence is a table key, the mapped key
events are emitted and no mouse decode is attempted (the mouse state is
passed on untouched), even when the sequence also fully matches the
mouse-report shape. -/
theorem c6_table_hit_priority (get : List Char → Option (List String))
    (buffered moreData : Nat → Bool) (sink : Bool) (c : Char) (rest : List Char)
    (n : Nat) (seq : List Char) (flag : Bool) (st : ParserState)
    (log : List DebugEntry) (keys : List String)
    (hcond : (buffered n || flag) = true)
    (hget : get (seq ++ [c]) = some keys)
    (_hmouse : reMouseEvent (seq ++ [c]) = true) :
    run get buffered moreData sink (c :: rest) n (Mode.inEscape seq flag) st log
      = ⟨keys.map Event.Key
            ++ (run get buffered moreData sink rest (n+1) Mode.idle st
                (dlog sink (dlog sink log (DebugEntry.seqEntry (seq ++ [c])))
                  (DebugEntry.matched (some keys)))).events,
          (run get buffered moreData sink rest (n+1) Mode.idle st
            (dlog sink (dlog sink log (DebugEntry.seqEntry (seq ++ [c])))
              (DebugEntry.matched (some keys)))).state,
          (run get buffered moreData sink rest (n+1) Mode.idle st
            (dlog sink (dlog sink log (DebugEntry.seqEntry (seq ++ [c])))
              (DebugEntry.matched (some keys)))).mode,
          (run get buffered moreData sink rest (n+1) Mode.idle st
            (dlog sink (dlog sink log (DebugEntry.seqEntry (seq ++ [c])))
              (DebugEntry.matched (some keys)))).log⟩ :=
  run_hit get buffered moreData sink c rest n seq flag st log keys hcond hget

/-- Witness for claim C6: a table whose key `ESC [ < 0 ; 1 ; 1 M` is also
a complete mouse report; the table hit wins and no mouse event or state
update happens. -/
theorem c6_table_hit_priority_witness :
    run (fun s => if s = String.toList "\x1b[<0;1;1M" then some ["f5"] else none)
        (fun _ => true) (fun _ => false) false
        ['M'] 0 (Mode.inEscape (String.toList "\x1b[<0;1;1") true) ⟨0, 0⟩ []
      = ⟨[Event.Key "f5"], ⟨0, 0⟩, Mode.idle, []⟩ := by
  have h := c6_table_hit_priority
    (fun s => if s = String.toList "\x1b[<0;1;1M" then some ["f5"] else none)
    (fun _ => true) (fun _ => false) false 'M' [] 0
    (String.toList "\x1b[<0;1;1") true ⟨0, 0⟩ [] ["f5"]
    (by decide) (by decide) (by decide)
  simpa [run_eof, dlog] using h

/-- Claim C7: a single non-ESC character decoded alone emits exactly its
table mapping when present, and otherwise a single key event carrying the
raw character; the decoder stays in `Idle` and the mouse state is
untouched in both cases. -/
theorem c7_single_char (get : List Char → Option (List String))
    (buffered moreData : Nat → Bool) (sink : Bool) (c : Char) (st : ParserState)
    (log : List DebugEntry) (hc : c ≠ '\x1b') :
    (get [c] = none →
      run get buffered moreData sink [c] 0 Mode.idle st log
        = ⟨[Event.Key (String.mk [c])], st, Mode.idle, dlog sink log (DebugEntry.ch c)⟩)
    ∧ ∀ keys, get [c] = some keys →
      run get buffered moreData sink [c] 0 Mode.idle st log
        = ⟨keys.map Event.Key, st, Mode.idle, dlog sink log (DebugEntry.ch c)⟩ := by
  constructor
  · intro h
    rw [run_idle_other get buffered moreData sink c [] 0 st log hc]
    simp [run_eof, h]
  · intro keys h
    rw [run_idle_other get buffered moreData sink c [] 0 st log hc]
    simp [run_eof, h]

/-- Witness for claim C7: the character a with an empty table, and a
carriage return mapped to the key name enter. -/
theorem c7_single_char_witness :
    run (fun _ => none) (fun _ => false) (fun _ => false) false
        ['a'] 0 Mode.idle ⟨0, 0⟩ []
      = ⟨[Event.Key (String.mk ['a'])], ⟨0, 0⟩, Mode.idle, []⟩
    ∧ run (fun s => if s = ['\x0d'] then some ["enter"] else none)
        (fun _ => false) (fun _ => false) false ['\x0d'] 0 Mode.idle ⟨0, 0⟩ []
      = ⟨[Event.Key "enter"], ⟨0, 0⟩, Mode.idle, []⟩ := by
  constructor
  · have h := (c7_single_char (fun _ => none) (fun _ => false) (fun _ => false) false
      'a' ⟨0, 0⟩ [] (by decide)).1 rfl
    simpa [dlog] using h
  · have h := (c7_single_char (fun s => if s = ['\x0d'] then some ["enter"] else none)
      (fun _ => false) (fun _ => false) false '\x0d' ⟨0, 0⟩ [] (by decide)).2
      ["enter"] (by decide)
    simpa [dlog] using h

/-- Claim C8: a lone ESC followed by end-of-stream, with no buffered
input and the driver flag false, emits zero events. -/
theorem c8_lone_escape (get : List Char → Option (List String))
    (buffered moreData : Nat → Bool) (sink : Bool) (st : ParserState)
    (_hbuf : ∀ n, buffered n = false) (hmore : moreData 0 = false) :
    run get buffered moreData sink ['\x1b'] 0 Mode.idle st []
      = ⟨[], st, Mode.idle, dlog sink [] (DebugEntry.ch '\x1b')⟩ := by
  rw [run_idle_esc, hmore, run_eof]

/-- Witness for claim C8. -/
theorem c8_lone_escape_witness :
    run (fun _ => none) (fun _ => false) (fun _ => false) false
        ['\x1b'] 0 Mode.idle ⟨0, 0⟩ []
      = ⟨[], ⟨0, 0⟩, Mode.idle, dlog false [] (DebugEntry.ch '\x1b')⟩ :=
  c8_lone_escape (fun _ => none) (fun _ => false) (fun _ => false) false ⟨0, 0⟩
    (fun _ => rfl) rfl

/-- Claim C9: the mouse-tracking state is mutated only by resolved mouse
reports.  A failed SGR match (including malformed fields) returns no
event and leaves the state untouched; at the decoding-loop level such a
failed attempt emits nothing and continues from `Idle` with the same
state; every resolved report updates the state to the decoded position
and yields an event. -/
theorem c9_mouse_state_mutation :
    (∀ (code : List Char) (st : ParserState), sgrFields code = none →
      parse_mouse_code code st = (none, st))
    ∧ (∀ (code : List Char) (st : ParserState) (b xf yf : Nat) (t : Char),
      sgrFields code = some (b, xf, yf, t) →
      (parse_mouse_code code st).2 = ⟨(xf : Int) - 1, (yf : Int) - 1⟩
      ∧ (parse_mouse_code code st).1.isSome = true)
    ∧ (∀ (get : List Char → Option (List String)) (buffered moreData : Nat → Bool)
        (sink : Bool) (c : Char) (rest : List Char) (n : Nat) (seq : List Char)
        (flag : Bool) (st : ParserState) (log : List DebugEntry),
      (buffered n || flag) = true →
      get (seq ++ [c]) = none →
      reMouseEvent (seq ++ [c]) = true →
      (parse_mouse_code (seq ++ [c]) st).1 = none →
      (run get buffered moreData sink (c :: rest) n (Mode.inEscape seq flag) st log).events
        = (run get buffered moreData sink rest (n+1) Mode.idle st log).events
      ∧ (run get buffered moreData sink (c :: rest) n (Mode.inEscape seq flag) st log).state
        = (run get buffered moreData sink rest (n+1) Mode.idle st log).state) := by
  refine ⟨?_, ?_, ?_⟩
  · intro code st h
    simp [parse_mouse_code, h]
  · intro code st b xf yf t h
    simp [parse_mouse_code, h]
  · intro get buffered moreData sink c rest n seq flag st log hcond hget hmse hnone
    have hsgr : sgrFields (seq ++ [c]) = none := by
      cases h : sgrFields (seq ++ [c]) with
      | none => rfl
      | some v =>
        obtain ⟨b, xf, yf, t⟩ := v
        simp [parse_mouse_code, h] at hnone
    have hp : parse_mouse_code (seq ++ [c]) st = (none, st) := by
      simp [parse_mouse_code, hsgr]
    rw [run_mouse get buffered moreData sink c rest n seq flag st log hcond hget hmse]
    simp only [hp, Option.toList_none, List.nil_append]
    exact ⟨(run_obs get buffered moreData sink sink rest (n+1) Mode.idle st _ log).1,
      (run_obs get buffered moreData sink sink rest (n+1) Mode.idle st _ log).2.1⟩

/-- Witness for claim C9: the malformed report `ESC [ < 5 ; 5 M` (only
two fields) fails without touching the state, and the resolved report
`ESC [ < 0 ; 2 ; 3 M` updates the state to (1,2). -/
theorem c9_mouse_state_mutation_witness :
    parse_mouse_code (String.toList "\x1b[<5;5M") ⟨3, 7⟩ = (none, ⟨3, 7⟩)
    ∧ (parse_mouse_code (String.toList "\x1b[<0;2;3M") ⟨5, 6⟩).2 = ⟨1, 2⟩
    ∧ (run (fun _ => none) (fun _ => true) (fun _ => false) false ['M'] 0
        (Mode.inEscape (String.toList "\x1b[<5;5") true) ⟨3, 7⟩ []).events
      = (run (fun _ => none) (fun _ => true) (fun _ => false) false [] 1
        Mode.idle ⟨3, 7⟩ []).events := by
  refine ⟨c9_mouse_state_mutation.1 _ _ (by decide), ?_, ?_⟩
  · have h := (c9_mouse_state_mutation.2.1 (String.toList "\x1b[<0;2;3M") ⟨5, 6⟩
      0 2 3 'M' (by decide)).1
    simpa using h
  · exact (c9_mouse_state_mutation.2.2 (fun _ => none) (fun _ => true)
      (fun _ => false) false 'M' [] 0 (String.toList "\x1b[<5;5") true ⟨3, 7⟩ []
      (by decide) (by decide) (by decide) (by decide)).1

/-- Claim C10: for every input stream, table and driver-supplied
availability answers, the events emitted (and the final decoder state)
are identical whether the debug sink is present or absent. -/
theorem c10_debug_sink_noop (get : List Char → Option (List String))
    (buffered moreData : Nat → Bool) (input : List Char) (st : ParserState) :
    (run get buffered moreData true input 0 Mode.idle st []).events
      = (run get buffered moreData false input 0 Mode.idle st []).events
    ∧ (run get buffered moreData true input 0 Mode.idle st []).state
      = (run get buffered moreData false input 0 Mode.idle st []).state
    ∧ (run get buffered moreData true input 0 Mode.idle st []).mode
      = (run get buffered moreData false input 0 Mode.idle st []).mode :=
  run_obs get buffered moreData true false input 0 Mode.idle st [] []
